import Mathlib

/-!
Verification of the mobbus-simulator core against its specification.

The Go source is shallowly embedded: machine integers become `Nat`/`Int`
with explicit wrapping where the code converts, `float64` arithmetic is
idealised as exact rational arithmetic (`ℚ`), and fallible operations
return `Except`/`Option`.  The IEEE-754 `float32` bit conversions used by
the `F32` data type are kept abstract as explicit function parameters
(`f32enc`, `f32dec`), since no claim depends on their numeric content.
-/

namespace ModbusSim

deriving instance DecidableEq for Except

/-- Truncation toward zero of a rational, mirroring Go's float→integer
conversion (which truncates toward zero for in-range values). -/
def qtrunc (q : ℚ) : Int := if 0 ≤ q then ⌊q⌋ else ⌈q⌉

/-- Two's-complement 32-bit pattern of an integer (Go `int32` bit image). -/
def toBits32 (i : Int) : Nat := (i % (4294967296 : Int)).toNat

/-- Reinterpret a 32-bit pattern as a signed `int32` value. -/
def fromBits32 (p : Nat) : Int := if p < 2147483648 then (p : Int) else (p : Int) - 4294967296

/-- Reinterpret a 16-bit pattern as a signed `int16` value. -/
def fromBits16 (p : Nat) : Int := if p < 32768 then (p : Int) else (p : Int) - 65536

/-- `DataType` from the source (`uint16`, `int16`, `uint32`, `int32`, `float32`). -/
inductive DataType where
  | u16
  | i16
  | u32
  | i32
  | f32
  deriving DecidableEq, Repr

/-- `RegisterCount` from the source: words occupied by a data type. -/
def DataType.registerCount : DataType → Nat
  | .u32 | .i32 | .f32 => 2
  | _ => 1

/-- `RegisterMeta` from the source (min/max bounds omitted: advisory only,
never read by any embedded operation). -/
structure RegisterMeta where
  address : Nat
  name : String
  dataType : DataType
  scale : ℚ
  unit : String
  writable : Bool
  deriving DecidableEq, Repr

/-- `RegisterMap` from the source.  Go's `[]uint16` slices become `List Nat`
(entries kept below 2^16 by every write path), `[]bool` become `List Bool`,
and the `map[uint16]*RegisterMeta` becomes an association list with
replacement on insert. -/
structure RegisterMap where
  coils : List Bool
  discreteInputs : List Bool
  inputRegisters : List Nat
  holdingRegisters : List Nat
  definitions : List RegisterMeta
  deriving DecidableEq, Repr

/-- The single failure mode of `RegisterMap` operations: the Go code returns
an "address out of range" error, which the protocol layer surfaces as Modbus
exception code 0x02 (Illegal Data Address). -/
inductive MapError where
  | outOfRange
  deriving DecidableEq, Repr

/-- `NewRegisterMap` from the source. -/
def registerMapNew (coilSize discreteSize inputSize holdingSize : Nat) : RegisterMap :=
  { coils := List.replicate coilSize false
    discreteInputs := List.replicate discreteSize false
    inputRegisters := List.replicate inputSize 0
    holdingRegisters := List.replicate holdingSize 0
    definitions := [] }

/-- `DefineRegister` from the source: installs/replaces the metadata entry. -/
def defineRegister (rm : RegisterMap) (address : Nat) (name : String)
    (dataType : DataType) (scale : ℚ) (unit : String) (writable : Bool) : RegisterMap :=
  { rm with definitions :=
      ⟨address, name, dataType, scale, unit, writable⟩ ::
        rm.definitions.filter (fun m => m.address ≠ address) }

/-- `GetDefinition` from the source. -/
def getDefinition (rm : RegisterMap) (address : Nat) : Option RegisterMeta :=
  rm.definitions.find? (fun m => m.address == address)

/-- `holdingIndex` from the source: user-facing address 40001 maps to
offset 0; addresses below 40001 are used as raw offsets. -/
def holdingIndex (address : Nat) : Nat :=
  if 40001 ≤ address then address - 40001 else address

/-- `ReadCoil` from the source. -/
def readCoil (rm : RegisterMap) (address : Nat) : Except MapError Bool :=
  if h : address < rm.coils.length then .ok (rm.coils.get ⟨address, h⟩)
  else .error .outOfRange

/-- `ReadCoils` from the source. -/
def readCoils (rm : RegisterMap) (address quantity : Nat) : Except MapError (List Bool) :=
  if address + quantity > rm.coils.length then .error .outOfRange
  else .ok ((rm.coils.drop address).take quantity)

/-- `WriteCoil` from the source. -/
def writeCoil (rm : RegisterMap) (address : Nat) (value : Bool) : Except MapError RegisterMap :=
  if address < rm.coils.length then .ok { rm with coils := rm.coils.set address value }
  else .error .outOfRange

/-- Overwrite a contiguous block of a list starting at index `i`,
mirroring Go's `copy(dst[i:i+len(vs)], vs)` (callers ensure it fits). -/
def listOverwrite {α : Type} (l : List α) (i : Nat) (vs : List α) : List α :=
  l.take i ++ vs ++ l.drop (i + vs.length)

/-- `WriteCoils` from the source. -/
def writeCoils (rm : RegisterMap) (address : Nat) (values : List Bool) :
    Except MapError RegisterMap :=
  if address + values.length > rm.coils.length then .error .outOfRange
  else .ok { rm with coils := listOverwrite rm.coils address values }

/-- `ReadDiscreteInput` from the source. -/
def readDiscreteInput (rm : RegisterMap) (address : Nat) : Except MapError Bool :=
  if h : address < rm.discreteInputs.length then .ok (rm.discreteInputs.get ⟨address, h⟩)
  else .error .outOfRange

/-- `ReadDiscreteInputs` from the source. -/
def readDiscreteInputs (rm : RegisterMap) (address quantity : Nat) :
    Except MapError (List Bool) :=
  if address + quantity > rm.discreteInputs.length then .error .outOfRange
  else .ok ((rm.discreteInputs.drop address).take quantity)

/-- `SetDiscreteInput` from the source. -/
def setDiscreteInput (rm : RegisterMap) (address : Nat) (value : Bool) :
    Except MapError RegisterMap :=
  if address < rm.discreteInputs.length then
    .ok { rm with discreteInputs := rm.discreteInputs.set address value }
  else .error .outOfRange

/-- `ReadInputRegister` from the source. -/
def readInputRegister (rm : RegisterMap) (address : Nat) : Except MapError Nat :=
  if h : address < rm.inputRegisters.length then .ok (rm.inputRegisters.get ⟨address, h⟩)
  else .error .outOfRange

/-- `ReadInputRegisters` from the source. -/
def readInputRegisters (rm : RegisterMap) (address quantity : Nat) :
    Except MapError (List Nat) :=
  if address + quantity > rm.inputRegisters.length then .error .outOfRange
  else .ok ((rm.inputRegisters.drop address).take quantity)

/-- `SetInputRegister` from the source. -/
def setInputRegister (rm : RegisterMap) (address value : Nat) :
    Except MapError RegisterMap :=
  if address < rm.inputRegisters.length then
    .ok { rm with inputRegisters := rm.inputRegisters.set address value }
  else .error .outOfRange

/-- `ReadHoldingRegister` from the source: the address is translated by
`holdingIndex` before the bound check. -/
def readHoldingRegister (rm : RegisterMap) (address : Nat) : Except MapError Nat :=
  let idx := holdingIndex address
  if h : idx < rm.holdingRegisters.length then .ok (rm.holdingRegisters.get ⟨idx, h⟩)
  else .error .outOfRange

/-- `ReadHoldingRegisters` from the source. -/
def readHoldingRegisters (rm : RegisterMap) (address quantity : Nat) :
    Except MapError (List Nat) :=
  let startIdx := holdingIndex address
  if startIdx + quantity > rm.holdingRegisters.length then .error .outOfRange
  else .ok ((rm.holdingRegisters.drop startIdx).take quantity)

/-- `WriteHoldingRegister` from the source. -/
def writeHoldingRegister (rm : RegisterMap) (address value : Nat) :
    Except MapError RegisterMap :=
  let idx := holdingIndex address
  if idx < rm.holdingRegisters.length then
    .ok { rm with holdingRegisters := rm.holdingRegisters.set idx value }
  else .error .outOfRange

/-- `WriteHoldingRegisters` from the source. -/
def writeHoldingRegisters (rm : RegisterMap) (address : Nat) (values : List Nat) :
    Except MapError RegisterMap :=
  let startIdx := holdingIndex address
  if startIdx + values.length > rm.holdingRegisters.length then .error .outOfRange
  else .ok { rm with holdingRegisters := listOverwrite rm.holdingRegisters startIdx values }

/-- `SetScaledValue` from the source.  `f32enc` abstracts Go's
`math.Float32bits(float32(value))`; the code stores its 32-bit result
split into two words (high first).  Integer conversions truncate toward
zero and wrap as the Go casts do for in-range inputs. -/
def setScaledValue (f32enc : ℚ → Nat) (rm : RegisterMap) (address : Nat) (value : ℚ) :
    Except MapError RegisterMap :=
  match getDefinition rm address with
  | none =>
      let idx := holdingIndex address
      if idx < rm.holdingRegisters.length then
        .ok { rm with holdingRegisters :=
          rm.holdingRegisters.set idx ((qtrunc value).toNat % 65536) }
      else .error .outOfRange
  | some meta =>
      let scaledValue := value * meta.scale
      let idx := holdingIndex address
      match meta.dataType with
      | .u16 =>
          if idx < rm.holdingRegisters.length then
            .ok { rm with holdingRegisters :=
              rm.holdingRegisters.set idx ((qtrunc scaledValue).toNat % 65536) }
          else .error .outOfRange
      | .i16 =>
          if idx < rm.holdingRegisters.length then
            .ok { rm with holdingRegisters :=
              rm.holdingRegisters.set idx ((qtrunc scaledValue) % (65536 : Int)).toNat }
          else .error .outOfRange
      | .u32 =>
          if idx + 1 < rm.holdingRegisters.length then
            let u32 := (qtrunc scaledValue).toNat % 4294967296
            .ok { rm with holdingRegisters :=
              (rm.holdingRegisters.set idx (u32 / 65536)).set (idx + 1) (u32 % 65536) }
          else .error .outOfRange
      | .i32 =>
          if idx + 1 < rm.holdingRegisters.length then
            let p := toBits32 (qtrunc scaledValue)
            .ok { rm with holdingRegisters :=
              (rm.holdingRegisters.set idx (p / 65536)).set (idx + 1) (p % 65536) }
          else .error .outOfRange
      | .f32 =>
          if idx + 1 < rm.holdingRegisters.length then
            let bits := f32enc value
            .ok { rm with holdingRegisters :=
              (rm.holdingRegisters.set idx (bits / 65536 % 65536)).set (idx + 1) (bits % 65536) }
          else .error .outOfRange

/-- The 32-bit reconstruction `uint32(hw)<<16 | uint32(lw)` performed by
`GetScaledValue` for the two-word data types; since the Go slice elements
are `uint16`, the bitwise-or is plain addition. -/
def reconstruct32 (hw lw : Nat) : Nat := hw * 65536 + lw

/-- `GetScaledValue` from the source.  `f32dec` abstracts Go's
`float64(math.Float32frombits(bits))`. -/
def getScaledValue (f32dec : Nat → ℚ) (rm : RegisterMap) (address : Nat) :
    Except MapError ℚ :=
  match getDefinition rm address with
  | none =>
      let idx := holdingIndex address
      if h : idx < rm.holdingRegisters.length then
        .ok ((rm.holdingRegisters.get ⟨idx, h⟩ : Nat) : ℚ)
      else .error .outOfRange
  | some meta =>
      let idx := holdingIndex address
      match meta.dataType with
      | .u16 =>
          if h : idx < rm.holdingRegisters.length then
            .ok (((rm.holdingRegisters.get ⟨idx, h⟩ : Nat) : ℚ) / meta.scale)
          else .error .outOfRange
      | .i16 =>
          if h : idx < rm.holdingRegisters.length then
            .ok (((fromBits16 (rm.holdingRegisters.get ⟨idx, h⟩) : Int) : ℚ) / meta.scale)
          else .error .outOfRange
      | .u32 =>
          if h : idx + 1 < rm.holdingRegisters.length then
            .ok (((reconstruct32 (rm.holdingRegisters.get ⟨idx, by omega⟩)
              (rm.holdingRegisters.get ⟨idx + 1, h⟩) : Nat) : ℚ) / meta.scale)
          else .error .outOfRange
      | .i32 =>
          if h : idx + 1 < rm.holdingRegisters.length then
            .ok (((fromBits32 (reconstruct32 (rm.holdingRegisters.get ⟨idx, by omega⟩)
              (rm.holdingRegisters.get ⟨idx + 1, h⟩)) : Int) : ℚ) / meta.scale)
          else .error .outOfRange
      | .f32 =>
          if h : idx + 1 < rm.holdingRegisters.length then
            .ok (f32dec (reconstruct32 (rm.holdingRegisters.get ⟨idx, by omega⟩)
              (rm.holdingRegisters.get ⟨idx + 1, h⟩)))
          else .error .outOfRange

/-- `DefaultRegisterMap` from the source: 10000-element spaces, the six
power-meter points defined, then their default values installed through
`SetScaledValue` (errors discarded, as in Go). -/
def setScaledD (f32enc : ℚ → Nat) (rm : RegisterMap) (address : Nat) (value : ℚ) :
    RegisterMap :=
  match setScaledValue f32enc rm address value with
  | .ok rm' => rm'
  | .error _ => rm

def defaultRegisterMap (f32enc : ℚ → Nat) : RegisterMap :=
  let rm := registerMapNew 10000 10000 10000 10000
  let rm := defineRegister rm 40001 "LineVoltage" .u16 10 "V" false
  let rm := defineRegister rm 40002 "LineCurrent" .u16 100 "A" false
  let rm := defineRegister rm 40003 "Frequency" .u16 100 "Hz" false
  let rm := defineRegister rm 40004 "TotalEnergy" .u32 1 "kWh" false
  let rm := defineRegister rm 40006 "PowerFactor" .u16 1000 "" false
  let rm := defineRegister rm 40007 "ActivePower" .u32 10 "W" false
  let rm := setScaledD f32enc rm 40001 220
  let rm := setScaledD f32enc rm 40002 (155 / 10)
  let rm := setScaledD f32enc rm 40003 60
  let rm := setScaledD f32enc rm 40004 0
  let rm := setScaledD f32enc rm 40006 (95 / 100)
  let rm := setScaledD f32enc rm 40007 3300
  rm

/-- `SlaveStats` counters from the source (time fields omitted). -/
structure SlaveStats where
  requestCount : Nat
  errorCount : Nat
  bytesReceived : Nat
  bytesSent : Nat
  deriving DecidableEq, Repr

/-- `Slave.recordRequest` from the source (the timestamp update is dropped). -/
def recordRequest (st : SlaveStats) (bytesIn bytesOut : Nat) (hasError : Bool) : SlaveStats :=
  { requestCount := st.requestCount + 1
    errorCount := st.errorCount + (if hasError then 1 else 0)
    bytesReceived := st.bytesReceived + bytesIn
    bytesSent := st.bytesSent + bytesOut }

/-- The register map plus statistics that `RequestHandler` operations touch. -/
structure SlaveModel where
  registers : RegisterMap
  stats : SlaveStats
  deriving DecidableEq, Repr

/-- The `RequestHandler` jitter/packet-loss knobs set by `SetJitter` /
`SetPacketLoss`.  Durations are modelled as `Int` nanoseconds. -/
structure HandlerCfg where
  jitterEnabled : Bool
  jitterMin : Int
  jitterMax : Int
  packetLossRate : ℚ
  deriving DecidableEq, Repr

/-- Two's-complement wrap of an integer into the `int64` range, mirroring
Go's defined overflow behaviour for `time.Duration` arithmetic. -/
def wrap64 (i : Int) : Int :=
  (i + 9223372036854775808) % 18446744073709551616 - 9223372036854775808

/-- `applyJitter` from the source.  `none` models a panic: when jitter is
enabled the code calls `rand.Int63n(int64(jitterMax - jitterMin))`, which
panics whenever its argument is not strictly positive.  The subtraction is
`time.Duration` (`int64`) arithmetic, so it wraps at ±2^63. -/
def applyJitter (cfg : HandlerCfg) : Option Unit :=
  if cfg.jitterEnabled = false then some ()
  else if wrap64 (cfg.jitterMax - cfg.jitterMin) ≤ 0 then none
  else some ()

lemma wrap64_eq_self (i : Int) (h1 : -9223372036854775808 ≤ i)
    (h2 : i < 9223372036854775808) : wrap64 i = i := by
  unfold wrap64
  omega

/-- `shouldDropPacket` from the source; `u` is the `rand.Float64()` draw. -/
def shouldDropPacket (cfg : HandlerCfg) (u : ℚ) : Bool :=
  if cfg.packetLossRate ≤ 0 then false else decide (u < cfg.packetLossRate)

/-- The error value a handler returns. -/
inductive HandlerErr where
  | modbusErr (code : Nat)
  | mapFault (e : MapError)
  deriving DecidableEq, Repr

/-- Outcome of a handler call that was not a panic. -/
inductive Outcome (α : Type) where
  | dropped
  | ok (val : α)
  | err (e : HandlerErr)
  deriving DecidableEq, Repr

/-- `HandleReadCoils` (FC 01) from the source; `none` models a jitter panic. -/
def handleReadCoils (cfg : HandlerCfg) (u : ℚ) (s : SlaveModel) (address quantity : Nat) :
    Option (SlaveModel × Outcome (List Bool)) := do
  let _ ← applyJitter cfg
  if shouldDropPacket cfg u then return (s, .dropped)
  match readCoils s.registers address quantity with
  | .error e => return ({ s with stats := recordRequest s.stats 0 0 true }, .err (.mapFault e))
  | .ok coils =>
      return ({ s with stats := recordRequest s.stats 8 (3 + (quantity + 7) / 8) false }, .ok coils)

/-- `HandleReadDiscreteInputs` (FC 02) from the source. -/
def handleReadDiscreteInputs (cfg : HandlerCfg) (u : ℚ) (s : SlaveModel)
    (address quantity : Nat) : Option (SlaveModel × Outcome (List Bool)) := do
  let _ ← applyJitter cfg
  if shouldDropPacket cfg u then return (s, .dropped)
  match readDiscreteInputs s.registers address quantity with
  | .error e => return ({ s with stats := recordRequest s.stats 0 0 true }, .err (.mapFault e))
  | .ok inputs =>
      return ({ s with stats := recordRequest s.stats 8 (3 + (quantity + 7) / 8) false }, .ok inputs)

/-- `HandleReadHoldingRegisters` (FC 03) from the source. -/
def handleReadHoldingRegisters (cfg : HandlerCfg) (u : ℚ) (s : SlaveModel)
    (address quantity : Nat) : Option (SlaveModel × Outcome (List Nat)) := do
  let _ ← applyJitter cfg
  if shouldDropPacket cfg u then return (s, .dropped)
  match readHoldingRegisters s.registers address quantity with
  | .error e => return ({ s with stats := recordRequest s.stats 0 0 true }, .err (.mapFault e))
  | .ok regs =>
      return ({ s with stats := recordRequest s.stats 8 (3 + quantity * 2) false }, .ok regs)

/-- `HandleReadInputRegisters` (FC 04) from the source. -/
def handleReadInputRegisters (cfg : HandlerCfg) (u : ℚ) (s : SlaveModel)
    (address quantity : Nat) : Option (SlaveModel × Outcome (List Nat)) := do
  let _ ← applyJitter cfg
  if shouldDropPacket cfg u then return (s, .dropped)
  match readInputRegisters s.registers address quantity with
  | .error e => return ({ s with stats := recordRequest s.stats 0 0 true }, .err (.mapFault e))
  | .ok regs =>
      return ({ s with stats := recordRequest s.stats 8 (3 + quantity * 2) false }, .ok regs)

/-- `HandleWriteSingleCoil` (FC 05) from the source: a defined,
non-writable point is rejected with Modbus exception code 0x02 before the
map is touched. -/
def handleWriteSingleCoil (cfg : HandlerCfg) (u : ℚ) (s : SlaveModel)
    (address : Nat) (value : Bool) : Option (SlaveModel × Outcome Unit) := do
  let _ ← applyJitter cfg
  if shouldDropPacket cfg u then return (s, .dropped)
  match getDefinition s.registers address with
  | some meta =>
      if meta.writable = false then
        return ({ s with stats := recordRequest s.stats 0 0 true }, .err (.modbusErr 2))
      else pure ()
  | none => pure ()
  match writeCoil s.registers address value with
  | .error e => return ({ s with stats := recordRequest s.stats 0 0 true }, .err (.mapFault e))
  | .ok rm' =>
      return ({ registers := rm', stats := recordRequest s.stats 8 8 false }, .ok ())

/-- `HandleWriteSingleRegister` (FC 06) from the source. -/
def handleWriteSingleRegister (cfg : HandlerCfg) (u : ℚ) (s : SlaveModel)
    (address value : Nat) : Option (SlaveModel × Outcome Unit) := do
  let _ ← applyJitter cfg
  if shouldDropPacket cfg u then return (s, .dropped)
  match getDefinition s.registers address with
  | some meta =>
      if meta.writable = false then
        return ({ s with stats := recordRequest s.stats 0 0 true }, .err (.modbusErr 2))
      else pure ()
  | none => pure ()
  match writeHoldingRegister s.registers address value with
  | .error e => return ({ s with stats := recordRequest s.stats 0 0 true }, .err (.mapFault e))
  | .ok rm' =>
      return ({ registers := rm', stats := recordRequest s.stats 8 8 false }, .ok ())

/-- `HandleWriteMultipleCoils` (FC 15) from the source: no writability check. -/
def handleWriteMultipleCoils (cfg : HandlerCfg) (u : ℚ) (s : SlaveModel)
    (address : Nat) (values : List Bool) : Option (SlaveModel × Outcome Unit) := do
  let _ ← applyJitter cfg
  if shouldDropPacket cfg u then return (s, .dropped)
  match writeCoils s.registers address values with
  | .error e => return ({ s with stats := recordRequest s.stats 0 0 true }, .err (.mapFault e))
  | .ok rm' =>
      return (⟨rm', recordRequest s.stats (9 + (values.length + 7) / 8) 8 false⟩, .ok ())

/-- `HandleWriteMultipleRegisters` (FC 16) from the source: no writability
check. -/
def handleWriteMultipleRegisters (cfg : HandlerCfg) (u : ℚ) (s : SlaveModel)
    (address : Nat) (values : List Nat) : Option (SlaveModel × Outcome Unit) := do
  let _ ← applyJitter cfg
  if shouldDropPacket cfg u then return (s, .dropped)
  match writeHoldingRegisters s.registers address values with
  | .error e => return ({ s with stats := recordRequest s.stats 0 0 true }, .err (.mapFault e))
  | .ok rm' =>
      return (⟨rm', recordRequest s.stats (9 + values.length * 2) 8 false⟩, .ok ())

/-- `SlaveState` from the source. -/
inductive SlaveState where
  | stopped
  | starting
  | running
  | stopping
  deriving DecidableEq, Repr

/-- `Slave.Start` from the source: the compare-and-swap succeeds only from
`stopped`; `bindOk` is the outcome of `ListenTCP`.  Returns the sequence of
states stored (in order) and whether an error was returned. -/
def slaveStart (st : SlaveState) (bindOk : Bool) : List SlaveState × Bool :=
  if st = .stopped then
    if bindOk then ([.starting, .running], false)
    else ([.starting, .stopped], true)
  else ([], true)

/-- `Slave.Stop` from the source: the compare-and-swap succeeds only from
`running`; on any other source state the method returns `nil` (no error)
without storing a state. -/
def slaveStop (st : SlaveState) : List SlaveState × Bool :=
  if st = .running then ([.stopping, .stopped], false)
  else ([], false)

/-- Final state after a lifecycle call, given the trace it produced. -/
def finalState (st : SlaveState) (trace : List SlaveState) : SlaveState :=
  trace.getLast? |>.getD st

/-- `ScenarioParams` from the source (durations as `Int` nanoseconds). -/
structure ScenarioParams where
  enabled : Bool
  duration : Int
  voltageVariance : ℚ
  frequencyVariance : ℚ
  jitterMin : Int
  jitterMax : Int
  packetLossRate : ℚ
  deriving DecidableEq, Repr

def ScenarioParams.zero : ScenarioParams := ⟨false, 0, 0, 0, 0, 0, 0⟩

/-- Mutable state of `NormalScenario` (the `lastUpdate` wall-clock field is
replaced by the per-tick `elapsed` input, in hours). -/
structure NormalState where
  baseVoltage : ℚ
  baseCurrent : ℚ
  baseFrequency : ℚ
  basePower : ℚ
  energy : ℚ
  deriving DecidableEq, Repr

/-- A fresh `NormalScenario{}` value (all fields zero). -/
def NormalState.init : NormalState := ⟨0, 0, 0, 0, 0⟩

/-- One tick's nondeterministic inputs: the three `rand.Float64()` draws and
the wall-clock hours elapsed since the previous tick. -/
structure TickInput where
  u1 : ℚ
  u2 : ℚ
  u3 : ℚ
  elapsed : ℚ
  deriving DecidableEq, Repr

/-- `NormalScenario.Update` from the source: lazily initialises the base
values, samples voltage/frequency/current around them, derives power with a
0.95 power factor, integrates energy over the elapsed hours, and writes the
six power-meter points through `SetScaledValue` (errors discarded). -/
def writePowerRegisters (f32enc : ℚ → Nat) (rm : RegisterMap)
    (voltage current frequency energy power : ℚ) : RegisterMap :=
  let rm := setScaledD f32enc rm 40001 voltage
  let rm := setScaledD f32enc rm 40002 current
  let rm := setScaledD f32enc rm 40003 frequency
  let rm := setScaledD f32enc rm 40004 energy
  let rm := setScaledD f32enc rm 40006 (95 / 100)
  let rm := setScaledD f32enc rm 40007 power
  rm

def normalUpdate (f32enc : ℚ → Nat) (s : NormalState) (params : ScenarioParams)
    (t : TickInput) (rm : RegisterMap) : NormalState × RegisterMap :=
  let s := if s.baseVoltage = 0 then
      { s with baseVoltage := 220, baseCurrent := 155 / 10, baseFrequency := 60,
               basePower := 3300 }
    else s
  let voltageVariance := if params.voltageVariance = 0 then 5 / 1000 else params.voltageVariance
  let voltage := s.baseVoltage * (1 + (t.u1 * 2 - 1) * voltageVariance)
  let freqVariance := if params.frequencyVariance = 0 then 5 / 10000 else params.frequencyVariance
  let frequency := s.baseFrequency * (1 + (t.u2 * 2 - 1) * freqVariance)
  let current := s.baseCurrent * (1 + (t.u3 * 2 - 1) * (2 / 100))
  let power := voltage * current * (95 / 100)
  let energy := s.energy + power * t.elapsed / 1000
  let s := { s with energy := energy }
  (s, writePowerRegisters f32enc rm voltage current frequency energy power)

/-- The hard-coded `ScenarioParams{VoltageVariance: 0.005, FrequencyVariance:
0.0005}` value the composite scenarios pass to the inner Normal update. -/
def fixedNormalParams : ScenarioParams :=
  { ScenarioParams.zero with voltageVariance := 5 / 1000, frequencyVariance := 5 / 10000 }

/-- Mutable state of `VoltageSagScenario`.  `started` models
`!startTime.IsZero()`; whether the current tick still falls inside the sag
window (`time.Since(startTime) < duration`) is the `inWindow` input. -/
structure SagState where
  normal : NormalState
  started : Bool
  sagFactor : ℚ
  deriving DecidableEq, Repr

/-- `VoltageSagScenario.Update` from the source: on the first tick it fixes
the sag factor `1 − voltage_variance` (defaulted to 0.8 outside `(0,1)`),
then runs the Normal update with hard-coded variances 0.005/0.0005 and, while
inside the sag window, multiplies the voltage and power points by the factor. -/
def voltageSagUpdate (f32enc : ℚ → Nat) (f32dec : Nat → ℚ) (s : SagState)
    (params : ScenarioParams) (t : TickInput) (inWindow : Bool) (rm : RegisterMap) :
    SagState × RegisterMap :=
  let s := if s.started = false then
      let factor := 1 - params.voltageVariance
      { s with started := true,
               sagFactor := if factor ≤ 0 ∨ 1 ≤ factor then 8 / 10 else factor }
    else s
  let (ns, rm) := normalUpdate f32enc s.normal fixedNormalParams t rm
  let s := { s with normal := ns }
  if inWindow then
    let voltage := (getScaledValue f32dec rm 40001).toOption.getD 0
    let rm := setScaledD f32enc rm 40001 (voltage * s.sagFactor)
    let power := (getScaledValue f32dec rm 40007).toOption.getD 0
    let rm := setScaledD f32enc rm 40007 (power * s.sagFactor)
    (s, rm)
  else (s, rm)

/-- Mutable state of `JitterScenario`. -/
structure JitterState where
  normal : NormalState
  jitterMin : Int
  jitterMax : Int
  deriving DecidableEq, Repr

/-- `JitterScenario.Update` from the source: publishes the jitter knobs
(defaulting zeros to 100ms/500ms) and runs the Normal update with the
hard-coded variances. -/
def jitterUpdate (f32enc : ℚ → Nat) (s : JitterState) (params : ScenarioParams)
    (t : TickInput) (rm : RegisterMap) : JitterState × RegisterMap :=
  let jmin := if params.jitterMin = 0 then 100000000 else params.jitterMin
  let jmax := if params.jitterMax = 0 then 500000000 else params.jitterMax
  let (ns, rm) := normalUpdate f32enc s.normal fixedNormalParams t rm
  ({ normal := ns, jitterMin := jmin, jitterMax := jmax }, rm)

/-- Mutable state of `PacketLossScenario`. -/
structure PacketLossState where
  normal : NormalState
  lossRate : ℚ
  deriving DecidableEq, Repr

/-- `PacketLossScenario.Update` from the source: publishes the loss rate
(defaulting 0 to 0.05) and runs the Normal update with the hard-coded
variances. -/
def packetLossUpdate (f32enc : ℚ → Nat) (s : PacketLossState) (params : ScenarioParams)
    (t : TickInput) (rm : RegisterMap) : PacketLossState × RegisterMap :=
  let rate := if params.packetLossRate = 0 then 5 / 100 else params.packetLossRate
  let (ns, rm) := normalUpdate f32enc s.normal fixedNormalParams t rm
  ({ normal := ns, lossRate := rate }, rm)

/-- The unit-id assignment in `Engine.Start`:
`uint8((int(UnitIDStart) + idx - 1) % 255 + 1)`.  For `start ≥ 1` the Go
`int` arithmetic never goes negative, so `Nat` arithmetic is exact; the
final `% 256` is the `uint8` conversion. -/
def assignUnitID (start idx : Nat) : Nat :=
  ((start + idx - 1) % 255 + 1) % 256

/-! ## Theorems -/

/-- **C9** Unit-ID assignment: for every configured `unit_id_start` in
[1, 255] and every slave index `i ≥ 0`, the supervisor assigns the i-th
slave the unit id `((unit_id_start − 1 + i) mod 255) + 1`, which always
lies in [1, 255]. -/
theorem c9_unit_id_assignment (start idx : Nat) (h1 : 1 ≤ start) (h2 : start ≤ 255) :
    assignUnitID start idx = (start - 1 + idx) % 255 + 1 ∧
    1 ≤ assignUnitID start idx ∧ assignUnitID start idx ≤ 255 := by
  unfold assignUnitID
  refine ⟨?_, ?_, ?_⟩ <;> omega

theorem c9_unit_id_assignment_witness :
    assignUnitID 5 300 = (5 - 1 + 300) % 255 + 1 ∧
    1 ≤ assignUnitID 5 300 ∧ assignUnitID 5 300 ≤ 255 :=
  c9_unit_id_assignment 5 300 (by decide) (by decide)

def c10slave : SlaveModel := ⟨registerMapNew 1 1 1 1, ⟨0, 0, 0, 0⟩⟩

/-- **C10 (counterexample to the claim as stated)** The width
`int64(jitterMax - jitterMin)` is computed in wrapping `time.Duration`
(`int64`) arithmetic, so the claim's `jitterMax ≤ jitterMin ↔ panic`
characterization fails at overflowing settings: with
`jitterMin = 2^62, jitterMax = −2^62−1` (so `jitterMax ≤ jitterMin`) the
wrapped width is `2^63 − 1 > 0` and the handler completes without panic;
with `jitterMin = −2^62−1, jitterMax = 2^62` (so `jitterMin < jitterMax`)
the wrapped width is `1 − 2^63 < 0` and the handler panics. -/
theorem c10_counterexample :
    (⟨true, 4611686018427387904, -4611686018427387905, 0⟩ : HandlerCfg).jitterMax ≤
      (⟨true, 4611686018427387904, -4611686018427387905, 0⟩ : HandlerCfg).jitterMin ∧
    (handleReadCoils ⟨true, 4611686018427387904, -4611686018427387905, 0⟩ 0
      c10slave 0 1).isSome ∧
    (⟨true, -4611686018427387905, 4611686018427387904, 0⟩ : HandlerCfg).jitterMin <
      (⟨true, -4611686018427387905, 4611686018427387904, 0⟩ : HandlerCfg).jitterMax ∧
    handleReadCoils ⟨true, -4611686018427387905, 4611686018427387904, 0⟩ 0
      c10slave 0 1 = none := by
  refine ⟨by decide, ?_, by decide, ?_⟩
  · have hj : applyJitter ⟨true, 4611686018427387904, -4611686018427387905, 0⟩
        = some () := by
      simp only [applyJitter, wrap64]
      norm_num
    simp [handleReadCoils, hj, shouldDropPacket]
    split <;> simp
  · have hj : applyJitter ⟨true, -4611686018427387905, 4611686018427387904, 0⟩
        = none := by
      simp only [applyJitter, wrap64]
      norm_num
    simp [handleReadCoils, hj]

/-- **C10 (amended)** Provided the duration difference
`jitterMax − jitterMin` does not overflow `int64` (as in every realistic
jitter setting — the shipped scenarios use 100 ms and 500 ms), the jitter
sleep is well-defined only when `jitter_min < jitter_max`: with jitter
enabled and `jitterMax ≤ jitterMin` every `Handle*` call panics (the
`rand.Int63n` draw needs a strictly positive width), and with jitter
disabled or `jitterMin < jitterMax` every `Handle*` call completes without
panic.  On overflow the panic condition is instead governed by the wrapped
width, as the counterexample shows. -/
theorem c10_jitter_panic (cfg : HandlerCfg) (u : ℚ) (s : SlaveModel)
    (a q v : Nat) (b : Bool) (bs : List Bool) (ns : List Nat)
    (hlo : -9223372036854775808 ≤ cfg.jitterMax - cfg.jitterMin)
    (hhi : cfg.jitterMax - cfg.jitterMin < 9223372036854775808) :
    (cfg.jitterEnabled = true → cfg.jitterMax ≤ cfg.jitterMin →
      handleReadCoils cfg u s a q = none ∧
      handleReadDiscreteInputs cfg u s a q = none ∧
      handleReadHoldingRegisters cfg u s a q = none ∧
      handleReadInputRegisters cfg u s a q = none ∧
      handleWriteSingleCoil cfg u s a b = none ∧
      handleWriteSingleRegister cfg u s a v = none ∧
      handleWriteMultipleCoils cfg u s a bs = none ∧
      handleWriteMultipleRegisters cfg u s a ns = none) ∧
    (cfg.jitterEnabled = false ∨ cfg.jitterMin < cfg.jitterMax →
      (handleReadCoils cfg u s a q).isSome ∧
      (handleReadDiscreteInputs cfg u s a q).isSome ∧
      (handleReadHoldingRegisters cfg u s a q).isSome ∧
      (handleReadInputRegisters cfg u s a q).isSome ∧
      (handleWriteSingleCoil cfg u s a b).isSome ∧
      (handleWriteSingleRegister cfg u s a v).isSome ∧
      (handleWriteMultipleCoils cfg u s a bs).isSome ∧
      (handleWriteMultipleRegisters cfg u s a ns).isSome) := by
  have hw : wrap64 (cfg.jitterMax - cfg.jitterMin) = cfg.jitterMax - cfg.jitterMin :=
    wrap64_eq_self _ hlo hhi
  constructor
  · intro h1 h2
    have hj : applyJitter cfg = none := by
      simp [applyJitter, h1, hw]
      omega
    refine ⟨?_, ?_, ?_, ?_, ?_, ?_, ?_, ?_⟩ <;>
      simp [handleReadCoils, handleReadDiscreteInputs, handleReadHoldingRegisters,
        handleReadInputRegisters, handleWriteSingleCoil, handleWriteSingleRegister,
        handleWriteMultipleCoils, handleWriteMultipleRegisters, hj]
  · intro h
    have hj : applyJitter cfg = some () := by
      rcases h with h | h
      · simp [applyJitter, h]
      · simp [applyJitter, hw]
        intro _
        omega
    refine ⟨?_, ?_, ?_, ?_, ?_, ?_, ?_, ?_⟩ <;>
      simp only [handleReadCoils, handleReadDiscreteInputs, handleReadHoldingRegisters,
        handleReadInputRegisters, handleWriteSingleCoil, handleWriteSingleRegister,
        handleWriteMultipleCoils, handleWriteMultipleRegisters, hj, Option.bind_some] <;>
      (repeat' split) <;> simp

theorem c10_jitter_panic_witness :
    handleReadCoils ⟨true, 5, 5, 0⟩ 0 ⟨registerMapNew 1 1 1 1, ⟨0, 0, 0, 0⟩⟩ 0 1 = none ∧
    (handleReadCoils ⟨false, 0, 0, 0⟩ 0 ⟨registerMapNew 1 1 1 1, ⟨0, 0, 0, 0⟩⟩ 0 1).isSome :=
  ⟨((c10_jitter_panic ⟨true, 5, 5, 0⟩ 0 ⟨registerMapNew 1 1 1 1, ⟨0, 0, 0, 0⟩⟩
      0 1 0 true [] [] (by decide) (by decide)).1 rfl (by decide)).1,
   ((c10_jitter_panic ⟨false, 0, 0, 0⟩ 0 ⟨registerMapNew 1 1 1 1, ⟨0, 0, 0, 0⟩⟩
      0 1 0 true [] [] (by decide) (by decide)).2 (Or.inl rfl)).1⟩

/-- **C6 (counterexample to the claim as stated)** `Stop` from the
`Stopped` state is a no-op that returns `nil` — it does not return an
error, contradicting the claim that Stop from every non-Running state
returns an error. -/
theorem c6_counterexample :
    (slaveStop .stopped).1 = [] ∧ (slaveStop .stopped).2 = false :=
  ⟨rfl, rfl⟩

/-- **C6 (amended)** `Start` succeeds only from `Stopped`
(`Stopped → Starting → Running`, or back to `Stopped` when the bind
fails) and from every other state it is a no-op returning an error;
`Stop` succeeds only from `Running` (`Running → Stopping → Stopped`), and
from every other state it is a no-op that returns success (`nil`), not an
error. -/
theorem c6_lifecycle (st : SlaveState) (bindOk : Bool) :
    slaveStart .stopped true = ([.starting, .running], false) ∧
    slaveStart .stopped false = ([.starting, .stopped], true) ∧
    (st ≠ .stopped → slaveStart st bindOk = ([], true) ∧ finalState st [] = st) ∧
    slaveStop .running = ([.stopping, .stopped], false) ∧
    (st ≠ .running → slaveStop st = ([], false) ∧ finalState st [] = st) := by
  refine ⟨rfl, rfl, ?_, rfl, ?_⟩ <;>
    (intro h; cases st <;> simp_all [slaveStart, slaveStop, finalState])

theorem c6_lifecycle_witness :
    slaveStart .running true = ([], true) ∧ slaveStop .stopped = ([], false) :=
  ⟨((c6_lifecycle .running true).2.2.1 (by decide)).1,
   ((c6_lifecycle .stopped true).2.2.2.2 (by decide)).1⟩

/-- **C1** Round-trip read-back: whenever `WriteHoldingRegister(a, v)` is
accepted (`v` a 16-bit value), a subsequent `ReadHoldingRegister(a)`
returns exactly `v` and no other cell of the map changes; likewise for
`WriteCoil(a, b)` followed by `ReadCoil(a)`. -/
theorem c1_round_trip (rm : RegisterMap) (a c v : Nat) (b : Bool) (_hv : v < 65536)
    (rmH rmC : RegisterMap)
    (hw : writeHoldingRegister rm a v = .ok rmH)
    (hc : writeCoil rm c b = .ok rmC) :
    readHoldingRegister rmH a = .ok v ∧
    rmH.coils = rm.coils ∧ rmH.discreteInputs = rm.discreteInputs ∧
    rmH.inputRegisters = rm.inputRegisters ∧ rmH.definitions = rm.definitions ∧
    (∀ j, j ≠ holdingIndex a → rmH.holdingRegisters[j]? = rm.holdingRegisters[j]?) ∧
    readCoil rmC c = .ok b ∧
    rmC.discreteInputs = rm.discreteInputs ∧ rmC.inputRegisters = rm.inputRegisters ∧
    rmC.holdingRegisters = rm.holdingRegisters ∧ rmC.definitions = rm.definitions ∧
    (∀ j, j ≠ c → rmC.coils[j]? = rm.coils[j]?) := by
  simp only [writeHoldingRegister] at hw
  split at hw
  case isFalse => exact absurd hw (by simp)
  case isTrue hidx =>
    cases hw
    simp only [writeCoil] at hc
    split at hc
    case isFalse => exact absurd hc (by simp)
    case isTrue hcidx =>
      cases hc
      refine ⟨?_, rfl, rfl, rfl, rfl, ?_, ?_, rfl, rfl, rfl, rfl, ?_⟩
      · simp only [readHoldingRegister]
        rw [dif_pos (by simpa using hidx)]
        simp [List.getElem_set_self]
      · intro j hj
        exact List.getElem?_set_ne (fun h => hj h.symm)
      · simp only [readCoil]
        rw [dif_pos (by simpa using hcidx)]
        simp [List.getElem_set_self]
      · intro j hj
        exact List.getElem?_set_ne (fun h => hj h.symm)

def c1map : RegisterMap := registerMapNew 4 4 4 4

def c1mapH : RegisterMap := { c1map with holdingRegisters := c1map.holdingRegisters.set 0 7 }

def c1mapC : RegisterMap := { c1map with coils := c1map.coils.set 2 true }

theorem c1_round_trip_witness :
    (7 : Nat) < 65536 ∧
    writeHoldingRegister c1map 40001 7 = .ok c1mapH ∧
    writeCoil c1map 2 true = .ok c1mapC ∧
    readHoldingRegister c1mapH 40001 = .ok 7 ∧
    readCoil c1mapC 2 = .ok true :=
  ⟨by decide, rfl, rfl,
   (c1_round_trip c1map 40001 2 7 true (by decide) c1mapH c1mapC rfl rfl).1,
   (c1_round_trip c1map 40001 2 7 true (by decide) c1mapH c1mapC rfl rfl).2.2.2.2.2.2.1⟩

/-- **C2 (counterexample to the claim as stated)** On a map whose holding
space has 16 registers (any configured size below 40002 behaves the same,
including the default 10000), `ReadHoldingRegisters(40001, 1)` has
`a + n = 40002 >` space size, yet it succeeds and returns the stored word:
the holding-register bound is checked against the translated offset
`a − 40001`, not against `a` itself. -/
theorem c2_counterexample :
    40001 + 1 > (registerMapNew 16 16 16 16).holdingRegisters.length ∧
    readHoldingRegisters (registerMapNew 16 16 16 16) 40001 1 = .ok [0] := by
  constructor
  · simp only [registerMapNew, List.length_replicate]
    omega
  · rfl

/-- **C2 (amended)** Bounds checking for the bulk reads: for coils,
discrete inputs and input registers the operation fails with the
Illegal-Data-Address error exactly when `a + n` exceeds the space size,
and otherwise returns exactly the `n` stored elements starting at `a`;
for holding registers the same holds with `a` first translated by
`holdingIndex` (`a − 40001` when `a ≥ 40001`).  Reads never modify the
map (they are pure functions of it in this model). -/
theorem c2_bulk_read_bounds (rm : RegisterMap) (a n : Nat) :
    (a + n > rm.coils.length → readCoils rm a n = .error .outOfRange) ∧
    (a + n ≤ rm.coils.length →
      ∃ l, readCoils rm a n = .ok l ∧ l.length = n ∧ ∀ i < n, l[i]? = rm.coils[a + i]?) ∧
    (a + n > rm.discreteInputs.length → readDiscreteInputs rm a n = .error .outOfRange) ∧
    (a + n ≤ rm.discreteInputs.length →
      ∃ l, readDiscreteInputs rm a n = .ok l ∧ l.length = n ∧
        ∀ i < n, l[i]? = rm.discreteInputs[a + i]?) ∧
    (a + n > rm.inputRegisters.length → readInputRegisters rm a n = .error .outOfRange) ∧
    (a + n ≤ rm.inputRegisters.length →
      ∃ l, readInputRegisters rm a n = .ok l ∧ l.length = n ∧
        ∀ i < n, l[i]? = rm.inputRegisters[a + i]?) ∧
    (holdingIndex a + n > rm.holdingRegisters.length →
      readHoldingRegisters rm a n = .error .outOfRange) ∧
    (holdingIndex a + n ≤ rm.holdingRegisters.length →
      ∃ l, readHoldingRegisters rm a n = .ok l ∧ l.length = n ∧
        ∀ i < n, l[i]? = rm.holdingRegisters[holdingIndex a + i]?) := by
  refine ⟨fun h => ?_, fun h => ?_, fun h => ?_, fun h => ?_,
          fun h => ?_, fun h => ?_, fun h => ?_, fun h => ?_⟩ <;>
    simp only [readCoils, readDiscreteInputs, readInputRegisters, readHoldingRegisters]
  · rw [if_pos h]
  · rw [if_neg (by omega)]
    refine ⟨_, rfl, ?_, fun i hi => ?_⟩
    · simp only [List.length_take, List.length_drop]; omega
    · rw [List.getElem?_take, if_pos hi, List.getElem?_drop]
  · rw [if_pos h]
  · rw [if_neg (by omega)]
    refine ⟨_, rfl, ?_, fun i hi => ?_⟩
    · simp only [List.length_take, List.length_drop]; omega
    · rw [List.getElem?_take, if_pos hi, List.getElem?_drop]
  · rw [if_pos h]
  · rw [if_neg (by omega)]
    refine ⟨_, rfl, ?_, fun i hi => ?_⟩
    · simp only [List.length_take, List.length_drop]; omega
    · rw [List.getElem?_take, if_pos hi, List.getElem?_drop]
  · rw [if_pos h]
  · rw [if_neg (by omega)]
    refine ⟨_, rfl, ?_, fun i hi => ?_⟩
    · simp only [List.length_take, List.length_drop]; omega
    · rw [List.getElem?_take, if_pos hi, List.getElem?_drop]

theorem c2_bulk_read_bounds_witness :
    readCoils (registerMapNew 4 4 4 4) 2 3 = .error .outOfRange ∧
    readDiscreteInputs (registerMapNew 4 4 4 4) 2 3 = .error .outOfRange ∧
    readInputRegisters (registerMapNew 4 4 4 4) 2 3 = .error .outOfRange ∧
    readHoldingRegisters (registerMapNew 4 4 4 4) 40003 3 = .error .outOfRange :=
  ⟨(c2_bulk_read_bounds (registerMapNew 4 4 4 4) 2 3).1 (by decide),
   (c2_bulk_read_bounds (registerMapNew 4 4 4 4) 2 3).2.2.1 (by decide),
   (c2_bulk_read_bounds (registerMapNew 4 4 4 4) 2 3).2.2.2.2.1 (by decide),
   (c2_bulk_read_bounds (registerMapNew 4 4 4 4) 40003 3).2.2.2.2.2.2.1 (by decide)⟩

/-- **C3** Write protection is enforced for single writes only: on an
address whose `RegisterDefinition` has `writable = false`,
`HandleWriteSingleCoil` and `HandleWriteSingleRegister` return the
Illegal-Data-Address error (exception code 0x02) and leave the registers
untouched, while the FC 15/16 handlers perform no writability check and
succeed whenever the underlying bulk write is in bounds.  (Stated for a
handler with jitter disabled and a packet-loss draw that does not drop
the request.) -/
theorem c3_write_protection (cfg : HandlerCfg) (u : ℚ) (s : SlaveModel) (a : Nat)
    (b : Bool) (v : Nat) (bs : List Bool) (ns : List Nat) (meta : RegisterMeta)
    (hjit : cfg.jitterEnabled = false)
    (hdrop : shouldDropPacket cfg u = false)
    (hmeta : getDefinition s.registers a = some meta)
    (hro : meta.writable = false) :
    handleWriteSingleCoil cfg u s a b =
      some ({ s with stats := recordRequest s.stats 0 0 true }, .err (.modbusErr 2)) ∧
    handleWriteSingleRegister cfg u s a v =
      some ({ s with stats := recordRequest s.stats 0 0 true }, .err (.modbusErr 2)) ∧
    (∀ rm', writeCoils s.registers a bs = .ok rm' →
      handleWriteMultipleCoils cfg u s a bs =
        some (⟨rm', recordRequest s.stats (9 + (bs.length + 7) / 8) 8 false⟩, .ok ())) ∧
    (∀ rm', writeHoldingRegisters s.registers a ns = .ok rm' →
      handleWriteMultipleRegisters cfg u s a ns =
        some (⟨rm', recordRequest s.stats (9 + ns.length * 2) 8 false⟩, .ok ())) := by
  have hj : applyJitter cfg = some () := by simp [applyJitter, hjit]
  refine ⟨?_, ?_, fun rm' hw => ?_, fun rm' hw => ?_⟩
  · simp [handleWriteSingleCoil, hj, hdrop, hmeta, hro]
  · simp [handleWriteSingleRegister, hj, hdrop, hmeta, hro]
  · simp [handleWriteMultipleCoils, hj, hdrop, hw]
  · simp [handleWriteMultipleRegisters, hj, hdrop, hw]

def c3map : RegisterMap := defineRegister (registerMapNew 4 4 4 4) 2 "RO" .u16 1 "" false

def c3slave : SlaveModel := ⟨c3map, ⟨0, 0, 0, 0⟩⟩

def c3mapW : RegisterMap := { c3map with coils := listOverwrite c3map.coils 2 [true] }

theorem c3_write_protection_witness :
    handleWriteSingleCoil ⟨false, 0, 0, 0⟩ 0 c3slave 2 true =
      some ({ c3slave with stats := recordRequest c3slave.stats 0 0 true },
        .err (.modbusErr 2)) ∧
    handleWriteMultipleCoils ⟨false, 0, 0, 0⟩ 0 c3slave 2 [true] =
      some (⟨c3mapW, recordRequest c3slave.stats (9 + (1 + 7) / 8) 8 false⟩, .ok ()) :=
  ⟨(c3_write_protection ⟨false, 0, 0, 0⟩ 0 c3slave 2 true 0 [true] []
      ⟨2, "RO", .u16, 1, "", false⟩ rfl rfl rfl rfl).1,
   (c3_write_protection ⟨false, 0, 0, 0⟩ 0 c3slave 2 true 0 [true] []
      ⟨2, "RO", .u16, 1, "", false⟩ rfl rfl rfl rfl).2.2.1 c3mapW rfl⟩

lemma qtrunc_of_nonneg (q : ℚ) (h : 0 ≤ q) : qtrunc q = ⌊q⌋ := if_pos h

def c4map : RegisterMap := defineRegister (registerMapNew 1 1 1 8) 3 "P" .u16 10 "" false

def c4mapAfter : RegisterMap :=
  { c4map with holdingRegisters := c4map.holdingRegisters.set 3 0 }

/-- **C4 (counterexample to the claim as stated)** For a `U16` point with
scale 10, writing `x = 1/20` stores `uint16(x·s) = trunc(0.5) = 0` (the
code truncates, it does not round), so the read-back value 0 differs from
`round(x·s)/s = 1/10` by exactly `1/s` — not strictly less than `1/s`. -/
theorem c4_counterexample :
    setScaledValue (fun _ => 0) c4map 3 (1 / 20) = .ok c4mapAfter ∧
    getScaledValue (fun _ => 0) c4mapAfter 3 = .ok 0 ∧
    ¬ (|(0 : ℚ) - (round ((1 / 20 : ℚ) * 10) : ℚ) / 10| < 1 / 10) := by
  have hdef : getDefinition c4map 3 = some ⟨3, "P", .u16, 10, "", false⟩ := rfl
  have hdef2 : getDefinition c4mapAfter 3 = some ⟨3, "P", .u16, 10, "", false⟩ := rfl
  have hq : (qtrunc ((1 : ℚ) / 20 * 10)).toNat % 65536 = 0 := by
    rw [show ((1 : ℚ) / 20 * 10) = 1 / 2 by norm_num, qtrunc, if_pos (by norm_num)]
    norm_num
  refine ⟨?_, ?_, ?_⟩
  · simp only [setScaledValue, hdef]
    rw [if_pos (by norm_num [holdingIndex, c4map, defineRegister, registerMapNew])]
    rw [show holdingIndex 3 = 3 from rfl, hq]
    rfl
  · simp only [getScaledValue, hdef2]
    rw [dif_pos (by norm_num [holdingIndex, c4mapAfter, c4map, defineRegister, registerMapNew])]
    have hget : c4mapAfter.holdingRegisters.get
        ⟨holdingIndex 3, by norm_num [holdingIndex, c4mapAfter, c4map, defineRegister,
          registerMapNew]⟩ = 0 := rfl
    rw [hget]
    norm_num
  · have h1 : ((1 / 20 : ℚ) * 10) = 1 / 2 := by norm_num
    have h2 : round ((1 : ℚ) / 2) = 1 := by
      rw [round_eq]
      norm_num
    rw [h1, h2, zero_sub, abs_neg]
    rw [abs_of_pos (by norm_num : (0 : ℚ) < ((1 : Int) : ℚ) / 10)]
    norm_num

/-- **C4 (amended)** Scaled quantisation law with a non-strict bound: for a
`U16`-typed defined point with scale `s > 0` and any `x ≥ 0` with
`x·s ≤ 0xFFFF`, after `SetScaledValue(a, x)` the value returned by
`GetScaledValue(a)` differs from `round(x·s)/s` by at most `1/s` (the code
writes `trunc(x·s)`, so the deviation from the rounded value can reach
exactly `1/s`, attained when `x·s` has fractional part one half). -/
theorem c4_scaled_quantisation (f32enc : ℚ → Nat) (f32dec : Nat → ℚ)
    (rm rm' : RegisterMap) (a : Nat) (meta : RegisterMeta) (x : ℚ)
    (hmeta : getDefinition rm a = some meta)
    (hdt : meta.dataType = .u16)
    (hs : 0 < meta.scale)
    (hx : 0 ≤ x)
    (hsx : x * meta.scale ≤ 65535)
    (hset : setScaledValue f32enc rm a x = .ok rm') :
    ∃ g, getScaledValue f32dec rm' a = .ok g ∧
      |g - (round (x * meta.scale) : ℚ) / meta.scale| ≤ 1 / meta.scale := by
  simp only [setScaledValue, hmeta, hdt] at hset
  split at hset
  case isFalse => exact absurd hset (by simp)
  case isTrue hidx =>
    cases hset
    set y := x * meta.scale with hy
    have hy0 : (0 : ℚ) ≤ y := mul_nonneg hx hs.le
    have hq : qtrunc y = ⌊y⌋ := qtrunc_of_nonneg y hy0
    have hfl0 : (0 : Int) ≤ ⌊y⌋ := Int.floor_nonneg.mpr hy0
    have hfl : ⌊y⌋ ≤ 65535 := by
      have h1 := Int.floor_le_floor hsx
      simpa using h1
    have hw : (qtrunc y).toNat % 65536 = ⌊y⌋.toNat := by rw [hq]; omega
    have hmeta' : getDefinition
        { rm with holdingRegisters :=
            rm.holdingRegisters.set (holdingIndex a) ((qtrunc y).toNat % 65536) } a
          = some meta := hmeta
    have hget : getScaledValue f32dec
        { rm with holdingRegisters :=
            rm.holdingRegisters.set (holdingIndex a) ((qtrunc y).toNat % 65536) } a
          = .ok (((⌊y⌋.toNat : Nat) : ℚ) / meta.scale) := by
      simp only [getScaledValue, hmeta', hdt]
      rw [dif_pos (by simpa using hidx), List.get_set_eq, hw]
    refine ⟨_, hget, ?_⟩
    · have hcast : ((⌊y⌋.toNat : Nat) : ℚ) = ((⌊y⌋ : Int) : ℚ) := by
        exact_mod_cast congrArg (fun z : Int => (z : ℚ)) (Int.toNat_of_nonneg hfl0)
      rw [hcast]
      have hround : (⌊y⌋ : Int) ≤ round y ∧ round y ≤ ⌊y⌋ + 1 := by
        constructor
        · rw [round_eq]
          exact Int.floor_le_floor (by linarith)
        · rw [round_eq]
          have h2 : ⌊y + 1 / 2⌋ ≤ ⌊y + 1⌋ := Int.floor_le_floor (by linarith)
          simpa using h2
      have habs : |((⌊y⌋ : Int) : ℚ) - (round y : ℚ)| ≤ 1 := by
        rw [abs_sub_le_iff]
        constructor
        · have hc : ((⌊y⌋ : Int) : ℚ) ≤ ((round y : Int) : ℚ) := by exact_mod_cast hround.1
          linarith
        · have := hround.2
          have hc : ((round y : Int) : ℚ) ≤ ((⌊y⌋ : Int) : ℚ) + 1 := by exact_mod_cast this
          linarith
      calc |((⌊y⌋ : Int) : ℚ) / meta.scale - (round y : ℚ) / meta.scale|
          = |((⌊y⌋ : Int) : ℚ) - (round y : ℚ)| / meta.scale := by
            rw [div_sub_div_same, abs_div, abs_of_pos hs]
        _ ≤ 1 / meta.scale := by gcongr

def c4wmap : RegisterMap := defineRegister (registerMapNew 1 1 1 8) 5 "W4" .u16 10 "" false

def c4wmapAfter : RegisterMap :=
  { c4wmap with holdingRegisters := c4wmap.holdingRegisters.set 5 15 }

theorem c4_scaled_quantisation_witness :
    getDefinition c4wmap 5 = some ⟨5, "W4", .u16, 10, "", false⟩ ∧
    setScaledValue (fun _ => 0) c4wmap 5 (157 / 100) = .ok c4wmapAfter ∧
    ∃ g, getScaledValue (fun _ => 0) c4wmapAfter 5 = .ok g ∧
      |g - (round ((157 / 100 : ℚ) * 10) : ℚ) / 10| ≤ 1 / 10 := by
  have hq : (qtrunc ((157 : ℚ) / 100 * 10)).toNat % 65536 = 15 := by
    rw [show ((157 : ℚ) / 100 * 10) = 157 / 10 by norm_num, qtrunc, if_pos (by norm_num)]
    rw [show ⌊(157 : ℚ) / 10⌋ = 15 by norm_num]
    decide
  have hset : setScaledValue (fun _ => 0) c4wmap 5 (157 / 100) = .ok c4wmapAfter := by
    simp only [setScaledValue, show getDefinition c4wmap 5 =
      some ⟨5, "W4", .u16, 10, "", false⟩ from rfl]
    rw [if_pos (by norm_num [holdingIndex, c4wmap, defineRegister, registerMapNew])]
    rw [show holdingIndex 5 = 5 from rfl, hq]
    rfl
  refine ⟨rfl, hset, ?_⟩
  have h := c4_scaled_quantisation (fun _ => 0) (fun _ => 0) c4wmap c4wmapAfter 5
    ⟨5, "W4", .u16, 10, "", false⟩ (157 / 100) rfl rfl (by norm_num) (by norm_num)
    (by norm_num) hset
  simpa using h

lemma qtrunc_nonneg (q : ℚ) (h : 0 ≤ q) : 0 ≤ qtrunc q := by
  rw [qtrunc_of_nonneg q h]
  exact Int.floor_nonneg.mpr h

lemma qtrunc_lt_of_lt (q : ℚ) (c : Int) (hc : 0 < c) (h : q < (c : ℚ)) : qtrunc q < c := by
  unfold qtrunc
  split
  · exact Int.floor_lt.mpr h
  · rename_i hneg
    push_neg at hneg
    have hceil : ⌈q⌉ ≤ 0 := Int.ceil_le.mpr (by exact_mod_cast hneg.le)
    omega

lemma le_qtrunc_of_le (q : ℚ) (c : Int) (hc : c ≤ 0) (h : (c : ℚ) ≤ q) : c ≤ qtrunc q := by
  unfold qtrunc
  split
  · rename_i hpos
    have h0 : (0 : Int) ≤ ⌊q⌋ := Int.floor_nonneg.mpr hpos
    omega
  · have hc : q ≤ ((0 : Int) : ℚ) := by
      rename_i hneg
      push_neg at hneg
      exact_mod_cast hneg.le
    have h0 : ⌈q⌉ ≤ 0 := Int.ceil_le.mpr hc
    have h2 : (c : ℚ) ≤ (⌈q⌉ : ℚ) := le_trans h (Int.le_ceil q)
    exact_mod_cast h2

lemma fromBits32_toBits32 (i : Int) (h1 : -2147483648 ≤ i) (h2 : i < 2147483648) :
    fromBits32 (toBits32 i) = i := by
  unfold toBits32 fromBits32
  split <;> omega

lemma set2_getElem (l : List Nat) (idx hw lw : Nat) (h : idx + 1 < l.length) :
    ((l.set idx hw).set (idx + 1) lw)[idx]? = some hw ∧
    ((l.set idx hw).set (idx + 1) lw)[idx + 1]? = some lw ∧
    ∀ j, j ≠ idx → j ≠ idx + 1 → ((l.set idx hw).set (idx + 1) lw)[j]? = l[j]? := by
  refine ⟨?_, ?_, fun j h1 h2 => ?_⟩
  · rw [List.getElem?_set_ne (by omega), List.getElem?_set_eq (by omega)]
  · rw [List.getElem?_set_eq (by simpa using h)]
  · rw [List.getElem?_set_ne (Ne.symm h2), List.getElem?_set_ne (Ne.symm h1)]

lemma get_of_getElem? {α : Type} (l : List α) (i : Nat) (x : α) (h : i < l.length)
    (hx : l[i]? = some x) : l.get ⟨i, h⟩ = x := by
  rw [List.getElem?_eq_getElem h] at hx
  rw [List.get_eq_getElem]
  exact Option.some.inj hx

lemma getDefinition_update (rm : RegisterMap) (l : List Nat) (a : Nat) :
    getDefinition { rm with holdingRegisters := l } a = getDefinition rm a := rfl

/-- **C5** Multi-word encoding: for a point defined with a two-word data
type, `SetScaledValue` writes exactly two consecutive registers — the
more-significant 16 bits of the 32-bit raw value at the lower offset, the
less-significant 16 bits at the next — leaving every other cell unchanged,
and `GetScaledValue` reconstructs the same 32-bit raw value (high word
first): for `U32` the raw value is `trunc(v·s)` and the read returns
`raw/s`, for `I32` it is the two's-complement image of `trunc(v·s)` and
the read returns `trunc(v·s)/s`, and for `F32` it is the IEEE-754 bit
pattern `f32enc v` of the value — the scale is never applied — and the
read returns `f32dec (f32enc v)`.  (Raw conversions are range-restricted
as in Go, whose out-of-range float→integer conversions are unspecified.) -/
theorem c5_multiword (f32enc : ℚ → Nat) (f32dec : Nat → ℚ)
    (rm rm' : RegisterMap) (a : Nat) (meta : RegisterMeta) (v : ℚ)
    (hmeta : getDefinition rm a = some meta)
    (hset : setScaledValue f32enc rm a v = .ok rm') :
    (meta.dataType = .u32 → 0 ≤ v * meta.scale → v * meta.scale < 4294967296 →
      rm'.holdingRegisters[holdingIndex a]? =
        some ((qtrunc (v * meta.scale)).toNat / 65536) ∧
      rm'.holdingRegisters[holdingIndex a + 1]? =
        some ((qtrunc (v * meta.scale)).toNat % 65536) ∧
      (∀ j, j ≠ holdingIndex a → j ≠ holdingIndex a + 1 →
        rm'.holdingRegisters[j]? = rm.holdingRegisters[j]?) ∧
      rm'.coils = rm.coils ∧ rm'.discreteInputs = rm.discreteInputs ∧
      rm'.inputRegisters = rm.inputRegisters ∧ rm'.definitions = rm.definitions ∧
      getScaledValue f32dec rm' a =
        .ok (((qtrunc (v * meta.scale)).toNat : ℚ) / meta.scale)) ∧
    (meta.dataType = .i32 → -2147483648 ≤ v * meta.scale → v * meta.scale < 2147483648 →
      rm'.holdingRegisters[holdingIndex a]? =
        some (toBits32 (qtrunc (v * meta.scale)) / 65536) ∧
      rm'.holdingRegisters[holdingIndex a + 1]? =
        some (toBits32 (qtrunc (v * meta.scale)) % 65536) ∧
      (∀ j, j ≠ holdingIndex a → j ≠ holdingIndex a + 1 →
        rm'.holdingRegisters[j]? = rm.holdingRegisters[j]?) ∧
      rm'.coils = rm.coils ∧ rm'.discreteInputs = rm.discreteInputs ∧
      rm'.inputRegisters = rm.inputRegisters ∧ rm'.definitions = rm.definitions ∧
      getScaledValue f32dec rm' a =
        .ok (((qtrunc (v * meta.scale)) : ℚ) / meta.scale)) ∧
    (meta.dataType = .f32 → f32enc v < 4294967296 →
      rm'.holdingRegisters[holdingIndex a]? = some (f32enc v / 65536) ∧
      rm'.holdingRegisters[holdingIndex a + 1]? = some (f32enc v % 65536) ∧
      (∀ j, j ≠ holdingIndex a → j ≠ holdingIndex a + 1 →
        rm'.holdingRegisters[j]? = rm.holdingRegisters[j]?) ∧
      rm'.coils = rm.coils ∧ rm'.discreteInputs = rm.discreteInputs ∧
      rm'.inputRegisters = rm.inputRegisters ∧ rm'.definitions = rm.definitions ∧
      getScaledValue f32dec rm' a = .ok (f32dec (f32enc v))) := by
  refine ⟨fun hdt h1 h2 => ?_, fun hdt h1 h2 => ?_, fun hdt h1 => ?_⟩
  · -- U32
    simp only [setScaledValue, hmeta, hdt] at hset
    split at hset
    case isFalse => exact absurd hset (by simp)
    case isTrue hidx =>
      cases hset
      set y := v * meta.scale with hy
      have htr0 : 0 ≤ qtrunc y := qtrunc_nonneg y h1
      have htlt : qtrunc y < 4294967296 :=
        qtrunc_lt_of_lt y 4294967296 (by norm_num) (by exact_mod_cast h2)
      have hraw : (qtrunc y).toNat % 4294967296 = (qtrunc y).toNat := by omega
      rw [hraw]
      obtain ⟨g1, g2, g3⟩ := set2_getElem rm.holdingRegisters (holdingIndex a)
        ((qtrunc y).toNat / 65536) ((qtrunc y).toNat % 65536) hidx
      refine ⟨g1, g2, g3, rfl, rfl, rfl, rfl, ?_⟩
      simp only [getScaledValue, getDefinition_update, hmeta, hdt]
      rw [dif_pos (by simpa using hidx)]
      rw [get_of_getElem? _ _ _ (by simpa using Nat.lt_of_succ_lt hidx) g1,
          get_of_getElem? _ _ _ (by simpa using hidx) g2]
      have hrec : reconstruct32 ((qtrunc y).toNat / 65536) ((qtrunc y).toNat % 65536)
          = (qtrunc y).toNat := by
        unfold reconstruct32
        omega
      rw [hrec]
  · -- I32
    simp only [setScaledValue, hmeta, hdt] at hset
    split at hset
    case isFalse => exact absurd hset (by simp)
    case isTrue hidx =>
      cases hset
      set y := v * meta.scale with hy
      have htlo : -2147483648 ≤ qtrunc y :=
        le_qtrunc_of_le y (-2147483648) (by norm_num) (by exact_mod_cast h1)
      have hthi : qtrunc y < 2147483648 :=
        qtrunc_lt_of_lt y 2147483648 (by norm_num) (by exact_mod_cast h2)
      have hplt : toBits32 (qtrunc y) < 4294967296 := by
        unfold toBits32
        omega
      obtain ⟨g1, g2, g3⟩ := set2_getElem rm.holdingRegisters (holdingIndex a)
        (toBits32 (qtrunc y) / 65536) (toBits32 (qtrunc y) % 65536) hidx
      refine ⟨g1, g2, g3, rfl, rfl, rfl, rfl, ?_⟩
      simp only [getScaledValue, getDefinition_update, hmeta, hdt]
      rw [dif_pos (by simpa using hidx)]
      rw [get_of_getElem? _ _ _ (by simpa using Nat.lt_of_succ_lt hidx) g1,
          get_of_getElem? _ _ _ (by simpa using hidx) g2]
      have hrec : reconstruct32 (toBits32 (qtrunc y) / 65536) (toBits32 (qtrunc y) % 65536)
          = toBits32 (qtrunc y) := by
        unfold reconstruct32
        omega
      rw [hrec, fromBits32_toBits32 (qtrunc y) htlo hthi]
  · -- F32
    simp only [setScaledValue, hmeta, hdt] at hset
    split at hset
    case isFalse => exact absurd hset (by simp)
    case isTrue hidx =>
      cases hset
      have hhw : f32enc v / 65536 % 65536 = f32enc v / 65536 := by omega
      rw [hhw]
      obtain ⟨g1, g2, g3⟩ := set2_getElem rm.holdingRegisters (holdingIndex a)
        (f32enc v / 65536) (f32enc v % 65536) hidx
      refine ⟨g1, g2, g3, rfl, rfl, rfl, rfl, ?_⟩
      simp only [getScaledValue, getDefinition_update, hmeta, hdt]
      rw [dif_pos (by simpa using hidx)]
      rw [get_of_getElem? _ _ _ (by simpa using Nat.lt_of_succ_lt hidx) g1,
          get_of_getElem? _ _ _ (by simpa using hidx) g2]
      have hrec : reconstruct32 (f32enc v / 65536) (f32enc v % 65536) = f32enc v := by
        unfold reconstruct32
        omega
      rw [hrec]

def c5map : RegisterMap := defineRegister (registerMapNew 1 1 1 8) 0 "E" .u32 1 "" false

def c5mapAfter : RegisterMap :=
  { c5map with holdingRegisters := (c5map.holdingRegisters.set 0 1).set 1 34464 }

theorem c5_multiword_witness :
    setScaledValue (fun _ => 0) c5map 0 100000 = .ok c5mapAfter ∧
    c5mapAfter.definitions = c5map.definitions ∧
    c5mapAfter.holdingRegisters[0]? = some 1 ∧
    c5mapAfter.holdingRegisters[1]? = some 34464 := by
  have hq : qtrunc ((100000 : ℚ) * 1) = 100000 := by
    rw [show ((100000 : ℚ) * 1) = 100000 by norm_num, qtrunc, if_pos (by norm_num)]
    norm_num
  have hset : setScaledValue (fun _ => 0) c5map 0 100000 = .ok c5mapAfter := by
    simp only [setScaledValue, show getDefinition c5map 0 =
      some ⟨0, "E", .u32, 1, "", false⟩ from rfl]
    rw [if_pos (by norm_num [holdingIndex, c5map, defineRegister, registerMapNew])]
    rw [hq, show (100000 : Int).toNat % 4294967296 = 100000 by omega]
    rw [show (100000 : Nat) / 65536 = 1 by norm_num,
        show (100000 : Nat) % 65536 = 34464 by norm_num]
    rfl
  exact ⟨hset,
    ((c5_multiword (fun _ => 0) (fun _ => 0) c5map c5mapAfter 0
        ⟨0, "E", .u32, 1, "", false⟩ 100000 rfl hset).1 rfl (by norm_num)
        (by norm_num)).2.2.2.2.2.2.1,
    rfl, rfl⟩

lemma setScaledValue_frame (f32enc : ℚ → Nat) (rm : RegisterMap) (a : Nat) (v : ℚ)
    (rm' : RegisterMap) (h : setScaledValue f32enc rm a v = .ok rm') :
    rm'.coils = rm.coils ∧ rm'.discreteInputs = rm.discreteInputs ∧
    rm'.inputRegisters = rm.inputRegisters ∧ rm'.definitions = rm.definitions ∧
    rm'.holdingRegisters.length = rm.holdingRegisters.length ∧
    (∀ j, j ≠ holdingIndex a → j ≠ holdingIndex a + 1 →
      rm'.holdingRegisters[j]? = rm.holdingRegisters[j]?) := by
  unfold setScaledValue at h
  dsimp only at h
  split at h
  · split at h
    · cases h
      exact ⟨rfl, rfl, rfl, rfl, by simp, fun j h1 _ => List.getElem?_set_ne (Ne.symm h1)⟩
    · exact Except.noConfusion h
  · split at h <;> split at h <;>
      first
        | exact Except.noConfusion h
        | (cases h
           refine ⟨rfl, rfl, rfl, rfl, by simp, fun j h1 h2 => ?_⟩
           first
             | exact List.getElem?_set_ne (Ne.symm h1)
             | rw [List.getElem?_set_ne (Ne.symm h2), List.getElem?_set_ne (Ne.symm h1)])

lemma setScaledD_frame (f32enc : ℚ → Nat) (rm : RegisterMap) (a : Nat) (v : ℚ) :
    (setScaledD f32enc rm a v).coils = rm.coils ∧
    (setScaledD f32enc rm a v).discreteInputs = rm.discreteInputs ∧
    (setScaledD f32enc rm a v).inputRegisters = rm.inputRegisters ∧
    (setScaledD f32enc rm a v).definitions = rm.definitions ∧
    (setScaledD f32enc rm a v).holdingRegisters.length = rm.holdingRegisters.length ∧
    (∀ j, j ≠ holdingIndex a → j ≠ holdingIndex a + 1 →
      (setScaledD f32enc rm a v).holdingRegisters[j]? = rm.holdingRegisters[j]?) := by
  unfold setScaledD
  split
  · rename_i rm' heq
    exact setScaledValue_frame f32enc rm a v rm' heq
  · exact ⟨rfl, rfl, rfl, rfl, rfl, fun j _ _ => rfl⟩

lemma energy_step_nonneg (B C vv u1 u3 el : ℚ) (hB : 0 ≤ B) (hC : 0 ≤ C)
    (hvv : |vv| ≤ 1) (hu1a : 0 ≤ u1) (hu1b : u1 ≤ 1) (hu3a : 0 ≤ u3) (hu3b : u3 ≤ 1)
    (hel : 0 ≤ el) :
    0 ≤ B * (1 + (u1 * 2 - 1) * vv) * (C * (1 + (u3 * 2 - 1) * (2 / 100))) *
      (95 / 100) * el / 1000 := by
  obtain ⟨hv1, hv2⟩ := abs_le.mp hvv
  have hvfac : 0 ≤ 1 + (u1 * 2 - 1) * vv := by
    nlinarith [mul_nonneg (by linarith : (0 : ℚ) ≤ 1 + (u1 * 2 - 1))
        (by linarith : (0 : ℚ) ≤ 1 + vv),
      mul_nonneg (by linarith : (0 : ℚ) ≤ 1 - (u1 * 2 - 1))
        (by linarith : (0 : ℚ) ≤ 1 - vv)]
  have hcfac : 0 ≤ 1 + (u3 * 2 - 1) * (2 / 100 : ℚ) := by nlinarith
  have hpow : 0 ≤ B * (1 + (u1 * 2 - 1) * vv) * (C * (1 + (u3 * 2 - 1) * (2 / 100))) *
      (95 / 100 : ℚ) :=
    mul_nonneg (mul_nonneg (mul_nonneg hB hvfac) (mul_nonneg hC hcfac)) (by norm_num)
  exact div_nonneg (mul_nonneg hpow hel) (by norm_num)

lemma normal_energy_mono (f32enc : ℚ → Nat) (s : NormalState) (params : ScenarioParams)
    (t : TickInput) (rm : RegisterMap)
    (hbv : 0 ≤ s.baseVoltage) (hbc : 0 ≤ s.baseCurrent)
    (hvv : |params.voltageVariance| ≤ 1)
    (hu1a : 0 ≤ t.u1) (hu1b : t.u1 ≤ 1) (hu3a : 0 ≤ t.u3) (hu3b : t.u3 ≤ 1)
    (hel : 0 ≤ t.elapsed) :
    s.energy ≤ (normalUpdate f32enc s params t rm).1.energy := by
  have h1 : |(5 / 1000 : ℚ)| ≤ 1 := by
    rw [abs_of_pos (by norm_num)]
    norm_num
  unfold normalUpdate
  dsimp only
  split_ifs with hinit hvz hvz <;>
    first
      | (have hh := energy_step_nonneg 220 (155 / 10) (5 / 1000) t.u1 t.u3 t.elapsed
          (by norm_num) (by norm_num) h1 hu1a hu1b hu3a hu3b hel
         linarith)
      | (have hh := energy_step_nonneg 220 (155 / 10) params.voltageVariance t.u1 t.u3 t.elapsed
          (by norm_num) (by norm_num) hvv hu1a hu1b hu3a hu3b hel
         linarith)
      | (have hh := energy_step_nonneg s.baseVoltage s.baseCurrent (5 / 1000) t.u1 t.u3 t.elapsed
          hbv hbc h1 hu1a hu1b hu3a hu3b hel
         linarith)
      | (have hh := energy_step_nonneg s.baseVoltage s.baseCurrent params.voltageVariance
          t.u1 t.u3 t.elapsed hbv hbc hvv hu1a hu1b hu3a hu3b hel
         linarith)

lemma writePowerRegisters_40004 (f32enc : ℚ → Nat) (rm : RegisterMap)
    (V C F E P : ℚ) (m4 : RegisterMeta)
    (hdef : getDefinition rm 40004 = some m4) (hdt : m4.dataType = .u32)
    (hscale : m4.scale = 1) (hlen : 4 < rm.holdingRegisters.length) :
    (writePowerRegisters f32enc rm V C F E P).holdingRegisters[3]? =
      some ((qtrunc E).toNat % 4294967296 / 65536) ∧
    (writePowerRegisters f32enc rm V C F E P).holdingRegisters[4]? =
      some ((qtrunc E).toNat % 4294967296 % 65536) := by
  unfold writePowerRegisters
  dsimp only
  set rm1 := setScaledD f32enc rm 40001 V with hrm1
  set rm2 := setScaledD f32enc rm1 40002 C with hrm2
  set rm3 := setScaledD f32enc rm2 40003 F with hrm3
  obtain ⟨-, -, -, d1, l1, -⟩ := setScaledD_frame f32enc rm 40001 V
  obtain ⟨-, -, -, d2, l2, -⟩ := setScaledD_frame f32enc rm1 40002 C
  obtain ⟨-, -, -, d3, l3, -⟩ := setScaledD_frame f32enc rm2 40003 F
  have hdef3 : getDefinition rm3 40004 = some m4 := by
    unfold getDefinition at hdef ⊢
    rw [← hrm3] at d3
    rw [← hrm2] at d2 l2
    rw [← hrm1] at d1 l1
    rw [d3, d2, d1]
    exact hdef
  have hlen3 : 4 < rm3.holdingRegisters.length := by
    rw [← hrm3] at l3
    rw [← hrm2] at l2
    rw [← hrm1] at l1
    rw [l3, l2, l1]
    exact hlen
  have hset4 : setScaledValue f32enc rm3 40004 E = .ok
      { rm3 with holdingRegisters := ((rm3.holdingRegisters.set 3 ((qtrunc E).toNat % 4294967296 / 65536)).set 4 ((qtrunc E).toNat % 4294967296 % 65536)) } := by
    simp only [setScaledValue, hdef3, hdt, hscale, mul_one]
    rw [if_pos (by rw [show holdingIndex 40004 = 3 from rfl]; omega)]
    rfl
  have hrm4 : setScaledD f32enc rm3 40004 E =
      { rm3 with holdingRegisters := ((rm3.holdingRegisters.set 3 ((qtrunc E).toNat % 4294967296 / 65536)).set 4 ((qtrunc E).toNat % 4294967296 % 65536)) } := by
    unfold setScaledD
    rw [hset4]
  obtain ⟨g1, g2, -⟩ := set2_getElem rm3.holdingRegisters 3
    ((qtrunc E).toNat % 4294967296 / 65536) ((qtrunc E).toNat % 4294967296 % 65536)
    (by omega)
  obtain ⟨-, -, -, -, -, f5⟩ := setScaledD_frame f32enc (setScaledD f32enc rm3 40004 E)
    40006 (95 / 100)
  obtain ⟨-, -, -, -, -, f6⟩ := setScaledD_frame f32enc
    (setScaledD f32enc (setScaledD f32enc rm3 40004 E) 40006 (95 / 100)) 40007 P
  constructor
  · rw [f6 3 (by decide) (by decide), f5 3 (by decide) (by decide), hrm4]
    exact g1
  · rw [f6 4 (by decide) (by decide), f5 4 (by decide) (by decide), hrm4]
    exact g2

def c7rm : RegisterMap := registerMapNew 1 1 1 8

/-- **C7 (counterexample to the claim as stated)** In the Normal scenario
with configured `voltage_variance = 3` (accepted by `Config.Validate`,
which does not bound it), a tick whose voltage draw is 0 produces the
voltage `220·(1 − 3) = −440`, hence negative power, and the accumulated
energy decreases below its initial value 0. -/
theorem c7_counterexample :
    (normalUpdate (fun _ => 0) NormalState.init
      { ScenarioParams.zero with voltageVariance := 3 } ⟨0, 0, 0, 1⟩ c7rm).1.energy
      < NormalState.init.energy := by
  unfold normalUpdate
  norm_num [NormalState.init, ScenarioParams.zero]

/-- **C7 (amended)** Energy monotonicity, restricted to voltage variances
of magnitude at most 1 (every shipped configuration uses 0.005 or 0.2, and
the VoltageSag/Jitter/PacketLoss scenarios hard-code 0.005 for their inner
Normal update): across every tick with non-negative elapsed time and
uniform draws in `[0,1]`, the accumulated energy never decreases in any of
the four scenarios; moreover each Normal tick stores the energy at the
`TotalEnergy` point 40004 as a two-word `U32` whose raw value
`trunc(energy) mod 2^32` is monotone in the energy while the energy stays
within `[0, 2^32)`, so the register value never decreases either. -/
theorem c7_energy_monotonicity (f32enc : ℚ → Nat) (f32dec : Nat → ℚ) :
    (∀ (s : NormalState) (params : ScenarioParams) (t : TickInput) (rm : RegisterMap),
      0 ≤ s.baseVoltage → 0 ≤ s.baseCurrent → |params.voltageVariance| ≤ 1 →
      0 ≤ t.u1 → t.u1 ≤ 1 → 0 ≤ t.u3 → t.u3 ≤ 1 → 0 ≤ t.elapsed →
      s.energy ≤ (normalUpdate f32enc s params t rm).1.energy) ∧
    (∀ (s : SagState) (params : ScenarioParams) (t : TickInput) (inWindow : Bool)
        (rm : RegisterMap),
      0 ≤ s.normal.baseVoltage → 0 ≤ s.normal.baseCurrent →
      0 ≤ t.u1 → t.u1 ≤ 1 → 0 ≤ t.u3 → t.u3 ≤ 1 → 0 ≤ t.elapsed →
      s.normal.energy ≤
        (voltageSagUpdate f32enc f32dec s params t inWindow rm).1.normal.energy) ∧
    (∀ (s : JitterState) (params : ScenarioParams) (t : TickInput) (rm : RegisterMap),
      0 ≤ s.normal.baseVoltage → 0 ≤ s.normal.baseCurrent →
      0 ≤ t.u1 → t.u1 ≤ 1 → 0 ≤ t.u3 → t.u3 ≤ 1 → 0 ≤ t.elapsed →
      s.normal.energy ≤ (jitterUpdate f32enc s params t rm).1.normal.energy) ∧
    (∀ (s : PacketLossState) (params : ScenarioParams) (t : TickInput) (rm : RegisterMap),
      0 ≤ s.normal.baseVoltage → 0 ≤ s.normal.baseCurrent →
      0 ≤ t.u1 → t.u1 ≤ 1 → 0 ≤ t.u3 → t.u3 ≤ 1 → 0 ≤ t.elapsed →
      s.normal.energy ≤ (packetLossUpdate f32enc s params t rm).1.normal.energy) ∧
    (∀ (s : NormalState) (params : ScenarioParams) (t : TickInput) (rm : RegisterMap)
        (m4 : RegisterMeta),
      getDefinition rm 40004 = some m4 → m4.dataType = .u32 → m4.scale = 1 →
      4 < rm.holdingRegisters.length →
      (normalUpdate f32enc s params t rm).2.holdingRegisters[3]? =
        some ((qtrunc (normalUpdate f32enc s params t rm).1.energy).toNat %
          4294967296 / 65536) ∧
      (normalUpdate f32enc s params t rm).2.holdingRegisters[4]? =
        some ((qtrunc (normalUpdate f32enc s params t rm).1.energy).toNat %
          4294967296 % 65536)) ∧
    (∀ e e' : ℚ, 0 ≤ e → e ≤ e' → e' ≤ 4294967295 →
      (qtrunc e).toNat % 4294967296 ≤ (qtrunc e').toNat % 4294967296) ∧
    (∀ p : Nat, p < 4294967296 → reconstruct32 (p / 65536) (p % 65536) = p) := by
  have h5 : |(5 / 1000 : ℚ)| ≤ 1 := by
    rw [abs_of_pos (by norm_num)]
    norm_num
  refine ⟨normal_energy_mono f32enc, ?_, ?_, ?_, ?_, ?_, ?_⟩
  · intro s params t inWindow rm hbv hbc hu1a hu1b hu3a hu3b hel
    unfold voltageSagUpdate
    have hm := normal_energy_mono f32enc s.normal fixedNormalParams
      t rm hbv hbc (by simpa [fixedNormalParams, ScenarioParams.zero] using h5)
      hu1a hu1b hu3a hu3b hel
    rcases he : normalUpdate f32enc s.normal fixedNormalParams t rm with ⟨ns, rm2⟩
    rw [he] at hm
    dsimp only
    have hn : ∀ x : ℚ,
        (if s.started = false then { s with started := true, sagFactor := x } else s).normal
          = s.normal := fun x => by split <;> rfl
    simp only [hn, he]
    cases inWindow <;> simpa using hm
  · intro s params t rm hbv hbc hu1a hu1b hu3a hu3b hel
    unfold jitterUpdate
    have hm := normal_energy_mono f32enc s.normal fixedNormalParams
      t rm hbv hbc (by simpa [fixedNormalParams, ScenarioParams.zero] using h5)
      hu1a hu1b hu3a hu3b hel
    rcases he : normalUpdate f32enc s.normal fixedNormalParams t rm with ⟨ns, rm2⟩
    rw [he] at hm
    simpa using hm
  · intro s params t rm hbv hbc hu1a hu1b hu3a hu3b hel
    unfold packetLossUpdate
    have hm := normal_energy_mono f32enc s.normal fixedNormalParams
      t rm hbv hbc (by simpa [fixedNormalParams, ScenarioParams.zero] using h5)
      hu1a hu1b hu3a hu3b hel
    rcases he : normalUpdate f32enc s.normal fixedNormalParams t rm with ⟨ns, rm2⟩
    rw [he] at hm
    simpa using hm
  · intro s params t rm m4 hdef hdt hscale hlen
    unfold normalUpdate
    dsimp only
    exact writePowerRegisters_40004 f32enc rm _ _ _ _ _ m4 hdef hdt hscale hlen
  · intro e e' he hee hub
    have h0' : (0 : ℚ) ≤ e' := le_trans he hee
    rw [qtrunc_of_nonneg e he, qtrunc_of_nonneg e' h0']
    have hm : ⌊e⌋ ≤ ⌊e'⌋ := Int.floor_le_floor hee
    have hub' : ⌊e'⌋ ≤ 4294967295 := by
      have h2 := Int.floor_le_floor hub
      simpa using h2
    have h0f : (0 : Int) ≤ ⌊e⌋ := Int.floor_nonneg.mpr he
    omega
  · intro p hp
    unfold reconstruct32
    omega

theorem c7_energy_monotonicity_witness :
    NormalState.init.energy ≤
      (normalUpdate (fun _ => 0) NormalState.init ScenarioParams.zero
        ⟨0, 0, 0, 1⟩ c7rm).1.energy :=
  (c7_energy_monotonicity (fun _ => 0) (fun _ => 0)).1 NormalState.init ScenarioParams.zero
    ⟨0, 0, 0, 1⟩ c7rm (by norm_num [NormalState.init]) (by norm_num [NormalState.init])
    (by norm_num [ScenarioParams.zero]) (by norm_num) (by norm_num) (by norm_num)
    (by norm_num) (by norm_num)

def c8slave : SlaveModel := ⟨registerMapNew 1 1 1 8, ⟨0, 0, 0, 0⟩⟩

/-- **C8 (counterexample to the claim as stated)** Counters are not
wire-accurate and drops are not counted: a successful FC 03 read of one
register records `bytes_in = 8`, not the wire-accurate `7 + 5 = 12` (MBAP
header plus the 5-byte request PDU), and `bytes_out = 5`, not the 11-byte
response ADU; and a request dropped by the packet-loss simulation leaves
every counter — including `errors` — unchanged. -/
theorem c8_counterexample :
    handleReadHoldingRegisters ⟨false, 0, 0, 0⟩ 0 c8slave 0 1 =
      some (⟨c8slave.registers, ⟨1, 0, 8, 5⟩⟩, .ok [0]) ∧
    (8 : Nat) ≠ 7 + 5 ∧
    (5 : Nat) ≠ 11 ∧
    handleReadHoldingRegisters ⟨false, 0, 0, 1⟩ 0 c8slave 0 1 = some (c8slave, .dropped) := by
  refine ⟨?_, by decide, by decide, ?_⟩ <;> rfl

/-- **C8 (amended)** Request counters, as coded: a dropped request leaves
the slave model (registers and all counters) unchanged; a completed request
increments `requests` by one; a successful one adds the fixed per-FC byte
amounts (8 in for reads and single writes, `9 + ⌈n/8⌉` or `9 + 2n` in for
multi-writes; `3 + ⌈q/8⌉` or `3 + 2q` out for reads, 8 out for writes) —
approximations, not the wire-accurate `7 + PDU` / response-ADU sizes — and
a request failing in the register map increments `errors` by one with zero
byte deltas.  (Stated for a jitter-disabled handler; single writes on an
undefined point.) -/
theorem c8_request_counters (cfg : HandlerCfg) (u : ℚ) (s : SlaveModel)
    (a q v : Nat) (b : Bool) (bs : List Bool) (ns : List Nat)
    (hjit : cfg.jitterEnabled = false) :
    (shouldDropPacket cfg u = true →
      handleReadCoils cfg u s a q = some (s, .dropped) ∧
      handleReadDiscreteInputs cfg u s a q = some (s, .dropped) ∧
      handleReadHoldingRegisters cfg u s a q = some (s, .dropped) ∧
      handleReadInputRegisters cfg u s a q = some (s, .dropped) ∧
      handleWriteSingleCoil cfg u s a b = some (s, .dropped) ∧
      handleWriteSingleRegister cfg u s a v = some (s, .dropped) ∧
      handleWriteMultipleCoils cfg u s a bs = some (s, .dropped) ∧
      handleWriteMultipleRegisters cfg u s a ns = some (s, .dropped)) ∧
    (shouldDropPacket cfg u = false →
      (∀ l, readCoils s.registers a q = .ok l →
        handleReadCoils cfg u s a q =
          some (⟨s.registers, recordRequest s.stats 8 (3 + (q + 7) / 8) false⟩, .ok l)) ∧
      (∀ e, readCoils s.registers a q = .error e →
        handleReadCoils cfg u s a q =
          some (⟨s.registers, recordRequest s.stats 0 0 true⟩, .err (.mapFault e))) ∧
      (∀ l, readDiscreteInputs s.registers a q = .ok l →
        handleReadDiscreteInputs cfg u s a q =
          some (⟨s.registers, recordRequest s.stats 8 (3 + (q + 7) / 8) false⟩, .ok l)) ∧
      (∀ e, readDiscreteInputs s.registers a q = .error e →
        handleReadDiscreteInputs cfg u s a q =
          some (⟨s.registers, recordRequest s.stats 0 0 true⟩, .err (.mapFault e))) ∧
      (∀ l, readHoldingRegisters s.registers a q = .ok l →
        handleReadHoldingRegisters cfg u s a q =
          some (⟨s.registers, recordRequest s.stats 8 (3 + q * 2) false⟩, .ok l)) ∧
      (∀ e, readHoldingRegisters s.registers a q = .error e →
        handleReadHoldingRegisters cfg u s a q =
          some (⟨s.registers, recordRequest s.stats 0 0 true⟩, .err (.mapFault e))) ∧
      (∀ l, readInputRegisters s.registers a q = .ok l →
        handleReadInputRegisters cfg u s a q =
          some (⟨s.registers, recordRequest s.stats 8 (3 + q * 2) false⟩, .ok l)) ∧
      (∀ e, readInputRegisters s.registers a q = .error e →
        handleReadInputRegisters cfg u s a q =
          some (⟨s.registers, recordRequest s.stats 0 0 true⟩, .err (.mapFault e))) ∧
      (getDefinition s.registers a = none →
        (∀ rm', writeCoil s.registers a b = .ok rm' →
          handleWriteSingleCoil cfg u s a b =
            some (⟨rm', recordRequest s.stats 8 8 false⟩, .ok ())) ∧
        (∀ e, writeCoil s.registers a b = .error e →
          handleWriteSingleCoil cfg u s a b =
            some (⟨s.registers, recordRequest s.stats 0 0 true⟩, .err (.mapFault e))) ∧
        (∀ rm', writeHoldingRegister s.registers a v = .ok rm' →
          handleWriteSingleRegister cfg u s a v =
            some (⟨rm', recordRequest s.stats 8 8 false⟩, .ok ())) ∧
        (∀ e, writeHoldingRegister s.registers a v = .error e →
          handleWriteSingleRegister cfg u s a v =
            some (⟨s.registers, recordRequest s.stats 0 0 true⟩, .err (.mapFault e)))) ∧
      (∀ rm', writeCoils s.registers a bs = .ok rm' →
        handleWriteMultipleCoils cfg u s a bs =
          some (⟨rm', recordRequest s.stats (9 + (bs.length + 7) / 8) 8 false⟩, .ok ())) ∧
      (∀ e, writeCoils s.registers a bs = .error e →
        handleWriteMultipleCoils cfg u s a bs =
          some (⟨s.registers, recordRequest s.stats 0 0 true⟩, .err (.mapFault e))) ∧
      (∀ rm', writeHoldingRegisters s.registers a ns = .ok rm' →
        handleWriteMultipleRegisters cfg u s a ns =
          some (⟨rm', recordRequest s.stats (9 + ns.length * 2) 8 false⟩, .ok ())) ∧
      (∀ e, writeHoldingRegisters s.registers a ns = .error e →
        handleWriteMultipleRegisters cfg u s a ns =
          some (⟨s.registers, recordRequest s.stats 0 0 true⟩, .err (.mapFault e)))) ∧
    (∀ (st : SlaveStats) (bi bo : Nat),
      (recordRequest st bi bo false).requestCount = st.requestCount + 1 ∧
      (recordRequest st bi bo false).errorCount = st.errorCount ∧
      (recordRequest st bi bo false).bytesReceived = st.bytesReceived + bi ∧
      (recordRequest st bi bo false).bytesSent = st.bytesSent + bo ∧
      (recordRequest st bi bo true).requestCount = st.requestCount + 1 ∧
      (recordRequest st bi bo true).errorCount = st.errorCount + 1) := by
  have hj : applyJitter cfg = some () := by simp [applyJitter, hjit]
  refine ⟨fun hdrop => ?_, fun hdrop => ?_, fun st bi bo => ?_⟩
  · refine ⟨?_, ?_, ?_, ?_, ?_, ?_, ?_, ?_⟩ <;>
      simp [handleReadCoils, handleReadDiscreteInputs, handleReadHoldingRegisters,
        handleReadInputRegisters, handleWriteSingleCoil, handleWriteSingleRegister,
        handleWriteMultipleCoils, handleWriteMultipleRegisters, hj, hdrop]
  · refine ⟨fun l hop => ?_, fun e hop => ?_, fun l hop => ?_, fun e hop => ?_,
      fun l hop => ?_, fun e hop => ?_, fun l hop => ?_, fun e hop => ?_,
      fun hnd => ⟨fun rm' hop => ?_, fun e hop => ?_, fun rm' hop => ?_, fun e hop => ?_⟩,
      fun rm' hop => ?_, fun e hop => ?_, fun rm' hop => ?_, fun e hop => ?_⟩ <;>
      simp [handleReadCoils, handleReadDiscreteInputs, handleReadHoldingRegisters,
        handleReadInputRegisters, handleWriteSingleCoil, handleWriteSingleRegister,
        handleWriteMultipleCoils, handleWriteMultipleRegisters, hj, hdrop, hop] <;>
      simp_all
  · exact ⟨rfl, rfl, rfl, rfl, rfl, rfl⟩

theorem c8_request_counters_witness :
    handleReadHoldingRegisters ⟨false, 0, 0, 0⟩ 0 c8slave 0 1 =
      some (⟨c8slave.registers, recordRequest c8slave.stats 8 (3 + 1 * 2) false⟩, .ok [0]) ∧
    (recordRequest c8slave.stats 8 (3 + 1 * 2) false).requestCount =
      c8slave.stats.requestCount + 1 :=
  ⟨((c8_request_counters ⟨false, 0, 0, 0⟩ 0 c8slave 0 1 0 true [] [] rfl).2.1
      (by rfl)).2.2.2.2.1 [0] rfl,
   ((c8_request_counters ⟨false, 0, 0, 0⟩ 0 c8slave 0 1 0 true [] [] rfl).2.2
      c8slave.stats 8 (3 + 1 * 2)).1⟩

end ModbusSim
